import Mathlib

/-!
Shallow embedding of the core of the "Mansion Escape" game (movement and
collision resolution, ghost AI state machine, power-ups, speed buff, camera
target, multiplayer power-up message handling), translated from the
JavaScript sources.  Coordinates and speeds are modelled as rationals; the
strict floating-point comparisons of the source become the corresponding
exact comparisons on `ℚ`, and a comparison of `Math.hypot(a, b)` against a
non-negative constant `c` is rendered as the equivalent comparison of
`a*a + b*b` against `c*c`.
-/

namespace MansionEscape

/-- Tuning constant from the source. -/
def DETECTION_RADIUS : ℚ := 150

/-- Tuning constant from the source. -/
def SPRINT_SPEED : ℚ := 5

/-- Tuning constant from the source (2.5 in the source). -/
def WALK_SPEED : ℚ := 5 / 2

/-- Tuning constant from the source (1.5 in the source). -/
def GHOST_SPEED : ℚ := 3 / 2

/-- Tuning constant from the source (0.8 in the source). -/
def GHOST_CHASE_BONUS : ℚ := 4 / 5

/-- A wall / obstacle rectangle as stored by the `Wall` and `Obstacle`
classes: position and extent (`this.w`, `this.h`). -/
structure Rect where
  x : ℚ
  y : ℚ
  w : ℚ
  h : ℚ
deriving DecidableEq

/-- An entity position with a square size, as shared by players, ghosts and
power-ups. -/
structure Ent where
  x : ℚ
  y : ℚ
  size : ℚ
deriving DecidableEq

/-- The `clamp(v, min, max)` helper: `Math.max(min, Math.min(max, v))`. -/
def clamp (v lo hi : ℚ) : ℚ := max lo (min hi v)

/-- The `aabbRectHit` test from the source: strict axis-aligned rectangle
overlap on both axes. -/
def aabbRectHit (ax ay aw ah rx ry rw rh : ℚ) : Bool :=
  decide (ax < rx + rw) && decide (ax + aw > rx) &&
    decide (ay < ry + rh) && decide (ay + ah > ry)

/-- The `aabbEntityHit` / `entityCollide` / `collide` test from the source:
square-to-square overlap. -/
def aabbEntityHit (a b : Ent) : Bool :=
  aabbRectHit a.x a.y a.size a.size b.x b.y b.size b.size

/-- Overlap of a square entity at `(nx, ny)` with one collider rectangle, as
tested inside the movement loops. -/
def wallHit (nx ny size : ℚ) (r : Rect) : Bool :=
  aabbRectHit nx ny size size r.x r.y r.w r.h

/-- The single-axis move resolver `tryMoveAxis` (game.js) / `moveAxis` (the
unnamed variants).  The candidate position is scanned against the walls and
then the obstacles; the first overlapping rectangle stops the scan (the
loop's early `return`).  Inside the hit branch the source computes snapped
coordinates and then discards them (`_nxSnap` / `_nySnap` here, dead as in
the source), returning the pre-move coordinate of the axis selected by
`dx !== 0`; with no hit the moved coordinate of that axis is returned. -/
def moveAxis (x y size dx dy : ℚ) (walls obstacles : List Rect) : ℚ :=
  let nx := x + dx
  let ny := y + dy
  match walls.find? (wallHit nx ny size) with
  | some w =>
      let _nxSnap := if dx > 0 then w.x - size else if dx < 0 then w.x + w.w else nx
      let _nySnap := if dy > 0 then w.y - size else if dy < 0 then w.y + w.h else ny
      if dx ≠ 0 then x else y
  | none =>
      match obstacles.find? (wallHit nx ny size) with
      | some o =>
          let _nxSnap := if dx > 0 then o.x - size else if dx < 0 then o.x + o.w else nx
          let _nySnap := if dy > 0 then o.y - size else if dy < 0 then o.y + o.h else ny
          if dx ≠ 0 then x else y
      | none => if dx ≠ 0 then nx else ny

/-- Whether the square at `(x, y)` overlaps some wall of the list. -/
def overlapsAnyWall (walls : List Rect) (x y size : ℚ) : Bool :=
  walls.any (wallHit x y size)

section MoveAxisLemmas

/-- A list scan finds a witness exactly when `any` holds. -/
lemma find?_none_iff_any_false {α : Type} (p : α → Bool) (l : List α) :
    l.find? p = none ↔ l.any p = false := by
  constructor
  · intro h
    rw [List.any_eq_false]
    intro x hx
    exact List.find?_eq_none.mp h x hx
  · intro h
    rw [List.find?_eq_none]
    intro x hx
    exact (List.any_eq_false.mp h) x hx

/-- On a hit (some wall or obstacle overlaps the candidate), the resolver
returns the pre-move coordinate of the axis selected by `dx ≠ 0`. -/
lemma moveAxis_eq_of_hit (x y size dx dy : ℚ) (walls obstacles : List Rect)
    (h : (walls.any (wallHit (x + dx) (y + dy) size)
          || obstacles.any (wallHit (x + dx) (y + dy) size)) = true) :
    moveAxis x y size dx dy walls obstacles = if dx ≠ 0 then x else y := by
  simp only [moveAxis]
  cases hw : walls.find? (wallHit (x + dx) (y + dy) size) with
  | some w => rfl
  | none =>
      have hwa : walls.any (wallHit (x + dx) (y + dy) size) = false :=
        (find?_none_iff_any_false _ _).mp hw
      have hoa : obstacles.any (wallHit (x + dx) (y + dy) size) = true := by
        rcases Bool.or_eq_true_iff.mp h with h' | h'
        · rw [hwa] at h'; exact absurd h' (by simp)
        · exact h'
      cases ho : obstacles.find? (wallHit (x + dx) (y + dy) size) with
      | some o => rfl
      | none =>
          rw [(find?_none_iff_any_false _ _).mp ho] at hoa
          exact absurd hoa (by simp)

/-- On a miss (no wall and no obstacle overlaps the candidate), the resolver
returns the moved coordinate of the axis selected by `dx ≠ 0`. -/
lemma moveAxis_eq_of_miss (x y size dx dy : ℚ) (walls obstacles : List Rect)
    (h : (walls.any (wallHit (x + dx) (y + dy) size)
          || obstacles.any (wallHit (x + dx) (y + dy) size)) = false) :
    moveAxis x y size dx dy walls obstacles = if dx ≠ 0 then x + dx else y + dy := by
  rcases Bool.or_eq_false_iff.mp h with ⟨hw, ho⟩
  simp only [moveAxis]
  rw [(find?_none_iff_any_false _ _).mpr hw, (find?_none_iff_any_false _ _).mpr ho]

end MoveAxisLemmas

/-- C1: a call of the single-axis move resolver with exactly one of `dx`,
`dy` non-zero returns the original unmoved coordinate of the moved axis
whenever the candidate position overlaps some wall or obstacle rectangle
(so the snapped coordinates computed inside the hit branch never reach the
returned value), and returns the moved coordinate of that axis whenever the
candidate overlaps no wall and no obstacle. -/
theorem moveAxis_cancels_on_hit_and_moves_on_miss
    (x y size dx dy : ℚ) (walls obstacles : List Rect) :
    (dx ≠ 0 → dy = 0 →
      ((walls.any (wallHit (x + dx) (y + dy) size)
          || obstacles.any (wallHit (x + dx) (y + dy) size)) = true →
        moveAxis x y size dx dy walls obstacles = x) ∧
      ((walls.any (wallHit (x + dx) (y + dy) size)
          || obstacles.any (wallHit (x + dx) (y + dy) size)) = false →
        moveAxis x y size dx dy walls obstacles = x + dx)) ∧
    (dx = 0 → dy ≠ 0 →
      ((walls.any (wallHit (x + dx) (y + dy) size)
          || obstacles.any (wallHit (x + dx) (y + dy) size)) = true →
        moveAxis x y size dx dy walls obstacles = y) ∧
      ((walls.any (wallHit (x + dx) (y + dy) size)
          || obstacles.any (wallHit (x + dx) (y + dy) size)) = false →
        moveAxis x y size dx dy walls obstacles = y + dy)) := by
  constructor
  · intro hdx _
    constructor
    · intro h
      rw [moveAxis_eq_of_hit x y size dx dy walls obstacles h, if_pos hdx]
    · intro h
      rw [moveAxis_eq_of_miss x y size dx dy walls obstacles h, if_pos hdx]
  · intro hdx _
    constructor
    · intro h
      rw [moveAxis_eq_of_hit x y size dx dy walls obstacles h,
        if_neg (by simp [hdx])]
    · intro h
      rw [moveAxis_eq_of_miss x y size dx dy walls obstacles h,
        if_neg (by simp [hdx])]

/-- Witness for C1 at concrete inputs: a blocked step keeps `x = 5`, a free
step moves to `x = 6`. -/
theorem moveAxis_cancels_on_hit_and_moves_on_miss_witness :
    moveAxis 5 0 4 3 0 [⟨10, 0, 4, 4⟩] [] = 5 ∧
    moveAxis 5 0 4 1 0 [⟨10, 0, 4, 4⟩] [] = 6 := by
  constructor
  · exact ((moveAxis_cancels_on_hit_and_moves_on_miss 5 0 4 3 0
      [⟨10, 0, 4, 4⟩] []).1 (by norm_num) rfl).1
      (by norm_num [wallHit, aabbRectHit])
  · have h := ((moveAxis_cancels_on_hit_and_moves_on_miss 5 0 4 1 0
      [⟨10, 0, 4, 4⟩] []).1 (by norm_num) rfl).2
      (by norm_num [wallHit, aabbRectHit])
    rw [h]; norm_num

/-- The movement part of `Player.update`: resolve the x axis first, then the
y axis with the already-updated x, then clamp both coordinates into the map
bounds, exactly as in the source. -/
def playerResolvedMove (x y size dx dy mapW mapH : ℚ)
    (walls obstacles : List Rect) : ℚ × ℚ :=
  let x1 := moveAxis x y size dx 0 walls obstacles
  let y1 := moveAxis x1 y size 0 dy walls obstacles
  (clamp x1 0 (mapW - size), clamp y1 0 (mapH - size))

section NoPenetrationLemmas

/-- The x-axis resolver call leaves the player outside every wall, provided
it is made with a non-zero `dx`. -/
lemma moveAxis_x_preserves_wallfree (x y size dx : ℚ)
    (walls obstacles : List Rect) (hdx : dx ≠ 0)
    (hfree : overlapsAnyWall walls x y size = false) :
    overlapsAnyWall walls (moveAxis x y size dx 0 walls obstacles) y size = false := by
  cases h : (walls.any (wallHit (x + dx) (y + 0) size)
      || obstacles.any (wallHit (x + dx) (y + 0) size)) with
  | true =>
      rw [moveAxis_eq_of_hit x y size dx 0 walls obstacles h, if_pos hdx]
      exact hfree
  | false =>
      rw [moveAxis_eq_of_miss x y size dx 0 walls obstacles h, if_pos hdx]
      have hw := (Bool.or_eq_false_iff.mp h).1
      rw [add_zero] at hw
      exact hw

/-- The y-axis resolver call leaves the player outside every wall. -/
lemma moveAxis_y_preserves_wallfree (x y size dy : ℚ)
    (walls obstacles : List Rect)
    (hfree : overlapsAnyWall walls x y size = false) :
    overlapsAnyWall walls x (moveAxis x y size 0 dy walls obstacles) size = false := by
  cases h : (walls.any (wallHit (x + 0) (y + dy) size)
      || obstacles.any (wallHit (x + 0) (y + dy) size)) with
  | true =>
      rw [moveAxis_eq_of_hit x y size 0 dy walls obstacles h, if_neg (by simp)]
      exact hfree
  | false =>
      rw [moveAxis_eq_of_miss x y size 0 dy walls obstacles h, if_neg (by simp)]
      have hw := (Bool.or_eq_false_iff.mp h).1
      rw [add_zero] at hw
      exact hw

/-- A value already inside the clamping interval is left unchanged. -/
lemma clamp_eq_self (v lo hi : ℚ) (hlo : lo ≤ v) (hhi : v ≤ hi) :
    clamp v lo hi = v := by
  unfold clamp
  rw [min_eq_right hhi, max_eq_right hlo]

end NoPenetrationLemmas

/-- Counterexample to C2: the map is 1920 by 1080, a single wall occupies
the square from (190, 190) to (240, 240), and the player stands wall-free
at (100, 200) with no movement input (`dx = dy = 0`).  The x-axis resolver
call returns the y coordinate (the `dx !== 0` selector picks `ny` when
`dx = 0`), teleporting the player onto (200, 200), inside the wall. -/
theorem playerResolvedMove_enters_wall :
    overlapsAnyWall [⟨190, 190, 50, 50⟩] 100 200 32 = false ∧
    playerResolvedMove 100 200 32 0 0 1920 1080 [⟨190, 190, 50, 50⟩] []
      = (200, 200) ∧
    overlapsAnyWall [⟨190, 190, 50, 50⟩] 200 200 32 = true := by
  refine ⟨?_, ?_, ?_⟩
  · norm_num [overlapsAnyWall, wallHit, aabbRectHit]
  · norm_num [playerResolvedMove, moveAxis, clamp, wallHit, aabbRectHit,
      List.find?]
  · norm_num [overlapsAnyWall, wallHit, aabbRectHit]

/-- C2 as amended: starting from a position whose rectangle overlaps no
wall, and provided the x-axis call is made with a non-zero `dx` (with
`dx = 0` the resolver returns the y coordinate, a variable slip that can
teleport the player into a wall), the two axis-separated calls end outside
every wall; if the post-move position moreover lies inside the map bounds,
the final clamp leaves it unchanged and the final rectangle overlaps no
wall (the clamp can otherwise push the rectangle into a wall that overlaps
the map border). -/
theorem playerResolvedMove_no_penetration (x y size dx dy mapW mapH x1 y1 : ℚ)
    (walls obstacles : List Rect)
    (hdx : dx ≠ 0)
    (hfree : overlapsAnyWall walls x y size = false)
    (hx1 : x1 = moveAxis x y size dx 0 walls obstacles)
    (hy1 : y1 = moveAxis x1 y size 0 dy walls obstacles) :
    overlapsAnyWall walls x1 y1 size = false ∧
    (0 ≤ x1 → x1 ≤ mapW - size → 0 ≤ y1 → y1 ≤ mapH - size →
      playerResolvedMove x y size dx dy mapW mapH walls obstacles = (x1, y1) ∧
      overlapsAnyWall walls
        (playerResolvedMove x y size dx dy mapW mapH walls obstacles).1
        (playerResolvedMove x y size dx dy mapW mapH walls obstacles).2
        size = false) := by
  have hx : overlapsAnyWall walls x1 y size = false := by
    rw [hx1]
    exact moveAxis_x_preserves_wallfree x y size dx walls obstacles hdx hfree
  have hxy : overlapsAnyWall walls x1 y1 size = false := by
    rw [hy1]
    exact moveAxis_y_preserves_wallfree x1 y size dy walls obstacles hx
  refine ⟨hxy, ?_⟩
  intro hx0 hxW hy0 hyH
  have hres : playerResolvedMove x y size dx dy mapW mapH walls obstacles
      = (x1, y1) := by
    simp only [playerResolvedMove, ← hx1, ← hy1]
    rw [clamp_eq_self x1 0 (mapW - size) hx0 hxW,
      clamp_eq_self y1 0 (mapH - size) hy0 hyH]
  refine ⟨hres, ?_⟩
  rw [hres]
  exact hxy

/-- Witness for amended C2 at concrete inputs: a free diagonal step from
(0, 0) by (1, 1) beside a wall ends at (1, 1), outside every wall. -/
theorem playerResolvedMove_no_penetration_witness :
    playerResolvedMove 0 0 4 1 1 100 100 [⟨10, 0, 4, 4⟩] [] = (1, 1) ∧
    overlapsAnyWall [⟨10, 0, 4, 4⟩]
      (playerResolvedMove 0 0 4 1 1 100 100 [⟨10, 0, 4, 4⟩] []).1
      (playerResolvedMove 0 0 4 1 1 100 100 [⟨10, 0, 4, 4⟩] []).2 4 = false :=
  (playerResolvedMove_no_penetration 0 0 4 1 1 100 100 1 1
    [⟨10, 0, 4, 4⟩] [] (by norm_num)
    (by norm_num [overlapsAnyWall, wallHit, aabbRectHit])
    (by norm_num [moveAxis, wallHit, aabbRectHit, List.find?])
    (by norm_num [moveAxis, wallHit, aabbRectHit, List.find?])).2
    (by norm_num) (by norm_num) (by norm_num) (by norm_num)

/-- The two states of the ghost AI. -/
inductive GhostState where
  | wander
  | chase
deriving DecidableEq

/-- Squared Euclidean distance; the source compares
`Math.hypot(px - gx, py - gy)` against non-negative radii, which is
equivalent to comparing this value against the squared radii. -/
def dist2 (px py gx gy : ℚ) : ℚ :=
  (px - gx) * (px - gx) + (py - gy) * (py - gy)

/-- The state-transition part of `Ghost.update`: detect a sprinting player
strictly inside the detection radius, otherwise drop back to wander when
chasing strictly beyond twice the detection radius. -/
def ghostNextState (st : GhostState) (px py gx gy : ℚ) (sprinting : Bool) :
    GhostState :=
  if dist2 px py gx gy < DETECTION_RADIUS * DETECTION_RADIUS ∧ sprinting = true then
    GhostState.chase
  else if st = GhostState.chase ∧
      (DETECTION_RADIUS * 2) * (DETECTION_RADIUS * 2) < dist2 px py gx gy then
    GhostState.wander
  else st

/-- C3: a wandering ghost enters chase exactly when the player is sprinting
strictly inside the detection radius (a non-sprinting player is never
detected), a chasing ghost drops back to wander exactly when the player is
strictly beyond twice the detection radius, and inside the hysteresis band
a chasing ghost keeps chasing. -/
theorem ghostNextState_hysteresis (px py gx gy : ℚ) (sprinting : Bool) :
    (ghostNextState GhostState.wander px py gx gy sprinting = GhostState.chase ↔
      dist2 px py gx gy < DETECTION_RADIUS * DETECTION_RADIUS ∧ sprinting = true) ∧
    (sprinting = false →
      ghostNextState GhostState.wander px py gx gy sprinting = GhostState.wander) ∧
    (ghostNextState GhostState.chase px py gx gy sprinting = GhostState.wander ↔
      (DETECTION_RADIUS * 2) * (DETECTION_RADIUS * 2) < dist2 px py gx gy) ∧
    (DETECTION_RADIUS * DETECTION_RADIUS ≤ dist2 px py gx gy →
      dist2 px py gx gy ≤ (DETECTION_RADIUS * 2) * (DETECTION_RADIUS * 2) →
      ghostNextState GhostState.chase px py gx gy sprinting = GhostState.chase) := by
  refine ⟨?_, ?_, ?_, ?_⟩
  · constructor
    · intro h
      by_contra hc
      simp only [ghostNextState, if_neg hc] at h
      split at h <;> simp_all
    · intro h
      simp only [ghostNextState, if_pos h]
  · intro h
    subst h
    simp only [ghostNextState]
    split
    · simp_all
    · split <;> simp_all
  · constructor
    · intro h
      simp only [ghostNextState] at h
      split at h
      · simp_all
      · split at h
        · simp_all
        · simp_all
    · intro h
      have hfar : ¬ dist2 px py gx gy < DETECTION_RADIUS * DETECTION_RADIUS := by
        intro hlt
        have h1 : (0:ℚ) < DETECTION_RADIUS * DETECTION_RADIUS := by
          norm_num [DETECTION_RADIUS]
        have h2 : DETECTION_RADIUS * DETECTION_RADIUS
            ≤ (DETECTION_RADIUS * 2) * (DETECTION_RADIUS * 2) := by
          norm_num [DETECTION_RADIUS]
        linarith
      unfold ghostNextState
      rw [if_neg (by tauto :
        ¬ (dist2 px py gx gy < DETECTION_RADIUS * DETECTION_RADIUS ∧
          sprinting = true))]
      rw [if_pos ⟨rfl, h⟩]
  · intro hlo hhi
    simp only [ghostNextState]
    rw [if_neg (by intro hc; exact absurd hc.1 (not_lt.mpr hlo)),
      if_neg (by intro hc; exact absurd hc.2 (not_lt.mpr hhi))]

/-- Witness for C3 at the distances of the spec's test vector: a wandering
ghost 140 units from a sprinting player starts chasing, a chasing ghost 320
units away drops to wander, and a chasing ghost 250 units away keeps
chasing. -/
theorem ghostNextState_hysteresis_witness :
    ghostNextState GhostState.wander 140 0 0 0 true = GhostState.chase ∧
    ghostNextState GhostState.chase 320 0 0 0 true = GhostState.wander ∧
    ghostNextState GhostState.chase 250 0 0 0 true = GhostState.chase := by
  refine ⟨?_, ?_, ?_⟩
  · exact (ghostNextState_hysteresis 140 0 0 0 true).1.mpr
      ⟨by norm_num [dist2, DETECTION_RADIUS], rfl⟩
  · exact (ghostNextState_hysteresis 320 0 0 0 true).2.2.1.mpr
      (by norm_num [dist2, DETECTION_RADIUS])
  · exact (ghostNextState_hysteresis 250 0 0 0 true).2.2.2
      (by norm_num [dist2, DETECTION_RADIUS])
      (by norm_num [dist2, DETECTION_RADIUS])

/-- The ghost-collision loop of the basic variant's `update`: every ghost is
tested in turn against the current player position; each overlap decrements
the lives (no floor) and teleports the player to (200, 200), and the loop
does not stop after the first overlap. -/
def ghostPhaseSimple (ghosts : List Ent) (px py psize : ℚ) (lives : ℤ) :
    ℚ × ℚ × ℤ :=
  ghosts.foldl
    (fun acc g =>
      if aabbEntityHit g ⟨acc.1, acc.2.1, psize⟩ then (200, 200, acc.2.2 - 1)
      else acc)
    (px, py, lives)

/-- The `hitsAnyCollision` / `hitsCollision` helper: does the square overlap
some wall or some obstacle. -/
def hitsCollision (walls obstacles : List Rect) (x y size : ℚ) : Bool :=
  walls.any (wallHit x y size) || obstacles.any (wallHit x y size)

/-- The `placePlayerAtSafeSpawn` routine of the enhanced game.js variant:
take the first candidate spawn spot that overlaps no collider, clamped into
the map bounds, or fall back to (300, 300). -/
def placePlayerAtSafeSpawn (mapW mapH psize : ℚ)
    (walls obstacles : List Rect) : ℚ × ℚ :=
  let candidates : List (ℚ × ℚ) :=
    [(64, 64), (mapW - 128, 64), (64, mapH - 128), (mapW - 128, mapH - 128),
      (mapW / 2 - psize / 2, mapH / 2 - psize / 2), (200, 200), (300, 300)]
  match candidates.find? (fun c => !hitsCollision walls obstacles c.1 c.2 psize) with
  | some c => (clamp c.1 0 (mapW - psize), clamp c.2 0 (mapH - psize))
  | none => (300, 300)

/-- The ghost-collision loop of the enhanced variants: the first ghost that
overlaps the player triggers a floored life decrement and a respawn, and the
`break` stops the loop, so the effect happens at most once and is decided by
the pre-phase player position. -/
def ghostPhaseBreak (ghosts : List Ent) (px py psize : ℚ) (lives : ℤ)
    (mapW mapH : ℚ) (walls obstacles : List Rect) : ℚ × ℚ × ℤ :=
  if ghosts.any (fun g => aabbEntityHit g ⟨px, py, psize⟩) then
    let spawn := placePlayerAtSafeSpawn mapW mapH psize walls obstacles
    (spawn.1, spawn.2, max 0 (lives - 1))
  else (px, py, lives)

/-- Counterexample to C4: in the basic variant's loop, two ghosts stacked on
the player at (200, 200) each cost a life in the same tick.  From 3 lives
the phase ends at 1 (neither 3 nor `max 0 (3 - 1) = 2`), and from 0 lives it
ends at -2, below zero. -/
theorem ghostPhaseSimple_double_hit :
    (ghostPhaseSimple [⟨200, 200, 32⟩, ⟨200, 200, 32⟩] 200 200 32 3).2.2 = 1 ∧
    (1 : ℤ) ≠ 3 ∧ (1 : ℤ) ≠ max 0 (3 - 1) ∧
    (ghostPhaseSimple [⟨200, 200, 32⟩, ⟨200, 200, 32⟩] 200 200 32 0).2.2 = -2 ∧
    (-2 : ℤ) < 0 := by
  refine ⟨?_, by norm_num, by norm_num, ?_, by norm_num⟩
  · norm_num [ghostPhaseSimple, aabbEntityHit, aabbRectHit, List.foldl]
  · norm_num [ghostPhaseSimple, aabbEntityHit, aabbRectHit, List.foldl]

/-- C4 as amended: in the variants whose collision loop floors the decrement
with `Math.max(0, lives - 1)` and breaks after the first overlapping ghost,
the lives after the phase equal either the starting value (no ghost overlaps
the player) or `max 0 (lives - 1)` (some ghost does), at most one life is
lost however many ghosts overlap, and non-negative lives stay non-negative;
the basic variant instead decrements once per overlapping ghost with no
floor. -/
theorem ghostPhaseBreak_lives_spec (ghosts : List Ent) (px py psize : ℚ)
    (lives : ℤ) (mapW mapH : ℚ) (walls obstacles : List Rect) :
    ((ghostPhaseBreak ghosts px py psize lives mapW mapH walls obstacles).2.2
        = lives ∨
      (ghostPhaseBreak ghosts px py psize lives mapW mapH walls obstacles).2.2
        = max 0 (lives - 1)) ∧
    (0 ≤ lives →
      0 ≤ (ghostPhaseBreak ghosts px py psize lives mapW mapH walls obstacles).2.2) ∧
    (ghosts.any (fun g => aabbEntityHit g ⟨px, py, psize⟩) = true →
      (ghostPhaseBreak ghosts px py psize lives mapW mapH walls obstacles).2.2
        = max 0 (lives - 1)) ∧
    (ghosts.any (fun g => aabbEntityHit g ⟨px, py, psize⟩) = false →
      (ghostPhaseBreak ghosts px py psize lives mapW mapH walls obstacles).2.2
        = lives) := by
  cases h : ghosts.any (fun g => aabbEntityHit g ⟨px, py, psize⟩) with
  | true =>
      have hval : (ghostPhaseBreak ghosts px py psize lives mapW mapH
          walls obstacles).2.2 = max 0 (lives - 1) := by
        simp [ghostPhaseBreak, h]
      refine ⟨Or.inr hval, ?_, fun _ => hval,
        fun hc => absurd hc (by decide)⟩
      intro _
      rw [hval]
      exact le_max_left 0 (lives - 1)
  | false =>
      have hval : (ghostPhaseBreak ghosts px py psize lives mapW mapH
          walls obstacles).2.2 = lives := by
        simp [ghostPhaseBreak, h]
      refine ⟨Or.inl hval, ?_,
        fun hc => absurd hc (by decide), fun _ => hval⟩
      intro h0
      rw [hval]
      exact h0

/-- Witness for amended C4 at concrete inputs: one overlapping ghost takes
the lives from 0 to `max 0 (0 - 1) = 0`, and no ghost keeps them at 5. -/
theorem ghostPhaseBreak_lives_spec_witness :
    (ghostPhaseBreak [⟨200, 200, 32⟩] 200 200 32 0 1920 1080 [] []).2.2
      = max 0 (0 - 1) ∧
    (ghostPhaseBreak [] 200 200 32 5 1920 1080 [] []).2.2 = 5 := by
  constructor
  · exact (ghostPhaseBreak_lives_spec [⟨200, 200, 32⟩] 200 200 32 0
      1920 1080 [] []).2.2.1
      (by norm_num [List.any, aabbEntityHit, aabbRectHit])
  · exact (ghostPhaseBreak_lives_spec [] 200 200 32 5 1920 1080 [] []).2.2.2 rfl

/-- The `startSpeedBuff` / `temporarySpeedBuff` routine: the new value of
the global pair (speedBuffTime, speedBuffMultiplier). -/
def startSpeedBuff (durationMs multiplier : ℚ) : ℚ × ℚ :=
  (durationMs, multiplier)

/-- The per-tick buff-timer update at the top of `update(dt)`:
`if (speedBuffTime > 0) speedBuffTime -= dt`. -/
def updateSpeedBuffTime (buffTime dt : ℚ) : ℚ :=
  if buffTime > 0 then buffTime - dt else buffTime

/-- The `getWalkSpeed` helper: walk speed scaled by the buff multiplier
while the buff time is positive. -/
def getWalkSpeed (buffTime buffMult : ℚ) : ℚ :=
  WALK_SPEED * (if buffTime > 0 then buffMult else 1)

/-- The `getSprintSpeed` helper: sprint speed scaled by the buff multiplier
while the buff time is positive. -/
def getSprintSpeed (buffTime buffMult : ℚ) : ℚ :=
  SPRINT_SPEED * (if buffTime > 0 then buffMult else 1)

/-- The speed computation of `Player.update` in the variants that route it
through the buff getters. -/
def playerEffectiveSpeed (sprinting : Bool) (buffTime buffMult : ℚ) : ℚ :=
  if sprinting then getSprintSpeed buffTime buffMult
  else getWalkSpeed buffTime buffMult

/-- The speed computation of `Player.update` in the enhanced game.js
variant: the raw constants, with no buff factor. -/
def playerSpeedBasicVariant (sprinting : Bool) : ℚ :=
  if sprinting then SPRINT_SPEED else WALK_SPEED

/-- Repeatedly decrementing a positive timer by non-negative tick times
whose total reaches the timer drives it to zero or below. -/
lemma foldl_updateSpeedBuffTime_nonpos :
    ∀ (dts : List ℚ) (t : ℚ), (∀ d ∈ dts, 0 ≤ d) → t ≤ dts.sum →
      dts.foldl updateSpeedBuffTime t ≤ 0 := by
  intro dts
  induction dts with
  | nil =>
      intro t _ hsum
      simpa using hsum
  | cons d rest ih =>
      intro t hpos hsum
      have hrest : ∀ x ∈ rest, 0 ≤ x := fun x hx => hpos x (List.mem_cons_of_mem d hx)
      simp only [List.foldl_cons]
      by_cases ht : t > 0
      · have : updateSpeedBuffTime t d = t - d := by
          simp [updateSpeedBuffTime, ht]
        rw [this]
        apply ih (t - d) hrest
        have : (d :: rest).sum = d + rest.sum := List.sum_cons
        linarith [hsum, this]
      · have : updateSpeedBuffTime t d = t := by
          simp [updateSpeedBuffTime, ht]
        rw [this]
        apply ih t hrest
        have hd : 0 ≤ d := hpos d (List.mem_cons_self d rest)
        have hr : 0 ≤ rest.sum := List.sum_nonneg hrest
        linarith [not_lt.mp ht]

/-- Counterexample to C5: in the enhanced game.js variant the speed power-up
starts a 6000 ms, 1.2 times buff, but `Player.update` reads the raw
constants, so while the buff is active the walking speed stays 2.5 instead
of the claimed 2.5 times 1.2. -/
theorem playerSpeedBasicVariant_ignores_buff :
    (startSpeedBuff 6000 (6/5)).1 > 0 ∧
    playerSpeedBasicVariant false
      ≠ WALK_SPEED *
        (if (startSpeedBuff 6000 (6/5)).1 > 0 then (startSpeedBuff 6000 (6/5)).2 else 1) := by
  constructor
  · norm_num [startSpeedBuff]
  · norm_num [playerSpeedBasicVariant, startSpeedBuff, WALK_SPEED]

/-- C5 as amended: in the variants that route the player speed through the
buff getters, the effective speed is the sprint or walk constant times the
buff multiplier while the buff time is positive and times 1 otherwise; and
after a 6000 ms, 1.2 times buff once the non-negative per-tick times sum to
at least 6000 ms, the effective speed is the unbuffed base again.  In the
enhanced game.js variant the buff multiplier never reaches the player
speed. -/
theorem playerEffectiveSpeed_spec (sprinting : Bool) (t m : ℚ) (dts : List ℚ)
    (hpos : ∀ d ∈ dts, 0 ≤ d)
    (hsum : (startSpeedBuff 6000 (6/5)).1 ≤ dts.sum) :
    playerEffectiveSpeed sprinting t m
        = (if sprinting then SPRINT_SPEED else WALK_SPEED) *
            (if t > 0 then m else 1) ∧
    playerEffectiveSpeed sprinting
        (dts.foldl updateSpeedBuffTime (startSpeedBuff 6000 (6/5)).1)
        (startSpeedBuff 6000 (6/5)).2
      = (if sprinting then SPRINT_SPEED else WALK_SPEED) := by
  constructor
  · cases sprinting with
    | true => simp [playerEffectiveSpeed, getSprintSpeed]
    | false => simp [playerEffectiveSpeed, getWalkSpeed]
  · have hend : dts.foldl updateSpeedBuffTime (startSpeedBuff 6000 (6/5)).1 ≤ 0 :=
      foldl_updateSpeedBuffTime_nonpos dts (startSpeedBuff 6000 (6/5)).1 hpos hsum
    have hnot : ¬ dts.foldl updateSpeedBuffTime (startSpeedBuff 6000 (6/5)).1 > 0 :=
      not_lt.mpr hend
    cases sprinting with
    | true => simp [playerEffectiveSpeed, getSprintSpeed, hnot]
    | false => simp [playerEffectiveSpeed, getWalkSpeed, hnot]

/-- Witness for amended C5 at concrete inputs: after a single 6000 ms tick
the buff has expired and the walking speed is the base walk speed again,
while during the buff the walking speed is scaled by 1.2. -/
theorem playerEffectiveSpeed_spec_witness :
    playerEffectiveSpeed false 6000 (6/5) = WALK_SPEED * (6/5) ∧
    playerEffectiveSpeed false
        ([(6000 : ℚ)].foldl updateSpeedBuffTime (startSpeedBuff 6000 (6/5)).1)
        (startSpeedBuff 6000 (6/5)).2
      = WALK_SPEED := by
  have h := playerEffectiveSpeed_spec false 6000 (6/5) [(6000 : ℚ)]
    (by intro d hd; rw [List.mem_singleton] at hd; rw [hd]; norm_num)
    (by norm_num [startSpeedBuff])
  constructor
  · rw [h.1]
    norm_num
  · have h2 := h.2
    simpa using h2

/-- The two power-up kinds. -/
inductive PUType where
  | shield
  | speed
deriving DecidableEq

/-- A power-up: entity data plus type and the one-shot `active` flag. -/
structure PowerUp where
  x : ℚ
  y : ℚ
  size : ℚ
  ptype : PUType
  active : Bool
deriving DecidableEq

/-- One iteration of the basic variant's power-up loop for one power-up:
an active power-up overlapping the player grants its effect (shield adds a
life, speed adds 1.5 to the player speed) and is deactivated; anything else
is left untouched.  Returns the power-up, the lives and the player speed
after the iteration. -/
def powerUpStep (pu : PowerUp) (px py psize pspeed : ℚ) (lives : ℤ) :
    PowerUp × ℤ × ℚ :=
  if pu.active && aabbEntityHit ⟨pu.x, pu.y, pu.size⟩ ⟨px, py, psize⟩ then
    match pu.ptype with
    | PUType.shield => ({ pu with active := false }, lives + 1, pspeed)
    | PUType.speed => ({ pu with active := false }, lives, pspeed + 3/2)
  else (pu, lives, pspeed)

/-- C6: the overlap handler can only take the `active` flag from true to
false, never back; an active shield power-up overlapping the player yields
exactly one extra life and a deactivated power-up in the same tick; and the
handler is a no-op on an inactive power-up, so any later overlap with the
collected power-up changes nothing. -/
theorem powerUpStep_one_shot (pu : PowerUp) (px py psize pspeed : ℚ)
    (lives : ℤ) :
    ((powerUpStep pu px py psize pspeed lives).1.active = true →
      pu.active = true) ∧
    (pu.active = true →
      aabbEntityHit ⟨pu.x, pu.y, pu.size⟩ ⟨px, py, psize⟩ = true →
      (powerUpStep pu px py psize pspeed lives).1.active = false ∧
      (pu.ptype = PUType.shield →
        powerUpStep pu px py psize pspeed lives
          = ({ pu with active := false }, lives + 1, pspeed))) ∧
    (pu.active = false →
      powerUpStep pu px py psize pspeed lives = (pu, lives, pspeed)) := by
  refine ⟨?_, ?_, ?_⟩
  · intro h
    by_contra hc
    have hfalse : pu.active = false := by
      cases hact : pu.active
      · rfl
      · exact absurd hact hc
    simp [powerUpStep, hfalse] at h
  · intro hact hhit
    have hcond : (pu.active && aabbEntityHit ⟨pu.x, pu.y, pu.size⟩
        ⟨px, py, psize⟩) = true := by
      rw [hact, hhit]
      rfl
    constructor
    · simp only [powerUpStep, hcond, if_true]
      cases pu.ptype <;> rfl
    · intro hty
      simp only [powerUpStep, hcond, if_true, hty]
  · intro hfalse
    simp [powerUpStep, hfalse]

/-- Witness for C6 at concrete inputs: an active shield power-up under the
player grants a life and deactivates, and running the handler again on the
collected power-up changes nothing. -/
theorem powerUpStep_one_shot_witness :
    powerUpStep ⟨300, 300, 24, PUType.shield, true⟩ 300 300 32 (5/2) 3
      = (⟨300, 300, 24, PUType.shield, false⟩, 4, 5/2) ∧
    powerUpStep ⟨300, 300, 24, PUType.shield, false⟩ 300 300 32 (5/2) 4
      = (⟨300, 300, 24, PUType.shield, false⟩, 4, 5/2) := by
  constructor
  · exact ((powerUpStep_one_shot ⟨300, 300, 24, PUType.shield, true⟩
      300 300 32 (5/2) 3).2.1 rfl
      (by norm_num [aabbEntityHit, aabbRectHit])).2 rfl
  · exact (powerUpStep_one_shot ⟨300, 300, 24, PUType.shield, false⟩
      300 300 32 (5/2) 4).2.2 rfl

/-- The `powerupTaken` branch of `handleServerMessage`: walk the power-up
list, skip inactive entries, and deactivate the first active entry whose
Euclidean distance to the message coordinates is strictly below 20 (the
squared comparison `dist2 < 400`), stopping there. -/
def handlePowerupTaken (mx my : ℚ) : List PowerUp → List PowerUp
  | [] => []
  | pu :: rest =>
      if pu.active = false then pu :: handlePowerupTaken mx my rest
      else if dist2 pu.x pu.y mx my < 400 then
        { pu with active := false } :: rest
      else pu :: handlePowerupTaken mx my rest

/-- Counterexample to C8: two active power-ups at (0, 0) and (1, 0) both
lie within 20 units of the message point (10, 0); the one at (1, 0) is
strictly nearer, yet the handler deactivates the one at (0, 0) because it
comes first in the list, and the nearer one stays active. -/
theorem handlePowerupTaken_not_nearest :
    handlePowerupTaken 10 0
        [⟨0, 0, 24, PUType.speed, true⟩, ⟨1, 0, 24, PUType.speed, true⟩]
      = [⟨0, 0, 24, PUType.speed, false⟩, ⟨1, 0, 24, PUType.speed, true⟩] ∧
    dist2 1 0 10 0 < dist2 0 0 10 0 ∧
    dist2 0 0 10 0 < 400 := by
  refine ⟨?_, ?_, ?_⟩
  · norm_num [handlePowerupTaken, dist2]
  · norm_num [dist2]
  · norm_num [dist2]

/-- C8 as amended: the handler deactivates exactly the first active
power-up in list order within 20 units of the message point, leaving every
other entry unchanged, and deactivates none when no active power-up lies
within the tolerance; the selection is by list position, not by distance. -/
theorem handlePowerupTaken_first_match (mx my : ℚ) (pus : List PowerUp) :
    ((∀ pu ∈ pus, pu.active = true → ¬ dist2 pu.x pu.y mx my < 400) →
      handlePowerupTaken mx my pus = pus) ∧
    (∀ pre pu post, pus = pre ++ pu :: post →
      (∀ q ∈ pre, q.active = true → ¬ dist2 q.x q.y mx my < 400) →
      pu.active = true → dist2 pu.x pu.y mx my < 400 →
      handlePowerupTaken mx my pus
        = pre ++ { pu with active := false } :: post) := by
  constructor
  · intro hnone
    induction pus with
    | nil => rfl
    | cons q rest ih =>
        have hq := hnone q (List.mem_cons_self q rest)
        have hrest : ∀ pu ∈ rest, pu.active = true → ¬ dist2 pu.x pu.y mx my < 400 :=
          fun pu hpu => hnone pu (List.mem_cons_of_mem q hpu)
        cases hact : q.active with
        | false => simp [handlePowerupTaken, hact, ih hrest]
        | true => simp [handlePowerupTaken, hact, hq hact, ih hrest]
  · intro pre
    induction pre generalizing pus with
    | nil =>
        intro pu post hsplit hpre hact hnear
        subst hsplit
        simp [handlePowerupTaken, hact, hnear]
    | cons q pres ih =>
        intro pu post hsplit hpre hact hnear
        subst hsplit
        have hq := hpre q (List.mem_cons_self q pres)
        have hpres : ∀ r ∈ pres, r.active = true → ¬ dist2 r.x r.y mx my < 400 :=
          fun r hr => hpre r (List.mem_cons_of_mem q hr)
        have htail := ih (pres ++ pu :: post) pu post rfl hpres hact hnear
        cases hqact : q.active with
        | false => simp [handlePowerupTaken, hqact, htail]
        | true => simp [handlePowerupTaken, hqact, hq hqact, htail]

/-- Witness for amended C8 at concrete inputs: with a far inactive entry
first, the second, active in-range entry is the one deactivated, and a list
with no in-range active entry is returned unchanged. -/
theorem handlePowerupTaken_first_match_witness :
    handlePowerupTaken 10 0
        [⟨0, 0, 24, PUType.shield, false⟩, ⟨5, 0, 24, PUType.speed, true⟩]
      = [⟨0, 0, 24, PUType.shield, false⟩, ⟨5, 0, 24, PUType.speed, false⟩] ∧
    handlePowerupTaken 10 0 [⟨500, 500, 24, PUType.shield, true⟩]
      = [⟨500, 500, 24, PUType.shield, true⟩] := by
  constructor
  · exact (handlePowerupTaken_first_match 10 0
      [⟨0, 0, 24, PUType.shield, false⟩, ⟨5, 0, 24, PUType.speed, true⟩]).2
      [⟨0, 0, 24, PUType.shield, false⟩] ⟨5, 0, 24, PUType.speed, true⟩ []
      rfl
      (by intro q hq hqact
          rw [List.mem_singleton] at hq
          rw [hq] at hqact
          exact absurd hqact (by decide))
      rfl (by norm_num [dist2])
  · exact (handlePowerupTaken_first_match 10 0
      [⟨500, 500, 24, PUType.shield, true⟩]).1
      (by intro pu hpu _
          rw [List.mem_singleton] at hpu
          rw [hpu]
          norm_num [dist2])

/-- The per-tick snapshot of the held keys read by the patched player
update; the pair of keys mapped to each direction (for example `w` and
`arrowup`) is collapsed into one flag, as only their disjunction is read. -/
structure InputState where
  up : Bool
  down : Bool
  left : Bool
  right : Bool
  shift : Bool
deriving DecidableEq

/-- The mutable player fields touched by the patched update. -/
structure PlayerMP where
  x : ℚ
  y : ℚ
  size : ℚ
  speed : ℚ
  sprinting : Bool
deriving DecidableEq

/-- The `Player.prototype.update` override installed by
`patchPlayerForSpeedBuff`: save the previous `sprinting` and `speed`, read
the inputs, compute buffed speed and the movement deltas (diagonals scaled
by the floating-point constant for the inverse square root of two, passed
here as the parameter `invRoot2` since it is irrational), resolve both
axes, clamp into the map, and finally restore the saved `sprinting` and
`speed`. -/
def patchedPlayerUpdate (inp : InputState) (invRoot2 : ℚ)
    (walls obstacles : List Rect) (mapW mapH buffTime buffMult : ℚ)
    (p : PlayerMP) : PlayerMP :=
  let prevSprint := p.sprinting
  let prevSpeed := p.speed
  let sprinting := inp.shift
  let speed := if sprinting then getSprintSpeed buffTime buffMult
    else getWalkSpeed buffTime buffMult
  let dy := (if inp.up then -speed else 0) + (if inp.down then speed else 0)
  let dx := (if inp.left then -speed else 0) + (if inp.right then speed else 0)
  let dx2 := if dx ≠ 0 ∧ dy ≠ 0 then dx * invRoot2 else dx
  let dy2 := if dx ≠ 0 ∧ dy ≠ 0 then dy * invRoot2 else dy
  let x1 := moveAxis p.x p.y p.size dx2 0 walls obstacles
  let y1 := moveAxis x1 p.y p.size 0 dy2 walls obstacles
  { x := clamp x1 0 (mapW - p.size), y := clamp y1 0 (mapH - p.size),
    size := p.size, speed := prevSpeed, sprinting := prevSprint }

/-- C7: every call of the patched update restores `sprinting` and `speed`
to their values from immediately before the call; consequently, iterating
the patched update from a player whose `sprinting` is false (its
initialisation value, written nowhere else outside the update), the
`sprinting` read by the ghost updates later in each tick is false on every
tick, whatever keys are held. -/
theorem patchedPlayerUpdate_restores_sprint (inp : InputState)
    (invRoot2 : ℚ) (walls obstacles : List Rect)
    (mapW mapH buffTime buffMult : ℚ) (p : PlayerMP)
    (ticks : List InputState) :
    (patchedPlayerUpdate inp invRoot2 walls obstacles mapW mapH buffTime
        buffMult p).sprinting = p.sprinting ∧
    (patchedPlayerUpdate inp invRoot2 walls obstacles mapW mapH buffTime
        buffMult p).speed = p.speed ∧
    (p.sprinting = false →
      (ticks.foldl
          (fun q i => patchedPlayerUpdate i invRoot2 walls obstacles mapW
            mapH buffTime buffMult q)
          p).sprinting = false) := by
  refine ⟨rfl, rfl, ?_⟩
  intro h0
  induction ticks generalizing p with
  | nil => exact h0
  | cons i rest ih =>
      simp only [List.foldl_cons]
      apply ih
      rw [show (patchedPlayerUpdate i invRoot2 walls obstacles mapW mapH
        buffTime buffMult p).sprinting = p.sprinting from rfl]
      exact h0

/-- Witness for C7 at concrete inputs: two ticks with the sprint key held
leave the observed `sprinting` of the player at false. -/
theorem patchedPlayerUpdate_restores_sprint_witness :
    (([⟨false, false, false, true, true⟩, ⟨true, false, false, false, true⟩] :
        List InputState).foldl
        (fun q i => patchedPlayerUpdate i (7/10) [] [] 1920 1080 0 1 q)
        ⟨300, 300, 32, 5/2, false⟩).sprinting = false :=
  (patchedPlayerUpdate_restores_sprint ⟨false, false, false, true, true⟩
    (7/10) [] [] 1920 1080 0 1 ⟨300, 300, 32, 5/2, false⟩
    [⟨false, false, false, true, true⟩, ⟨true, false, false, false, true⟩]).2.2
    rfl

/-- The `getTargetCamera` routine: the effective (pre-zoom) view size is
the screen size divided by the zoom, the target centres that view on the
player, and each axis is clamped into `[0, max 0 (map - view)]`. -/
def getTargetCamera (px py viewW viewH zoom mapW mapH : ℚ) : ℚ × ℚ :=
  let vw := viewW / zoom
  let vh := viewH / zoom
  (clamp (px - vw / 2) 0 (max 0 (mapW - vw)),
    clamp (py - vh / 2) 0 (max 0 (mapH - vh)))

/-- C9: the camera target is the player-centred effective viewport (screen
size divided by zoom) clamped to `[0, mapSize - viewSize]` on each axis
where the map is at least as large as the effective viewport, and it is 0
on any axis where the map is smaller than the effective viewport. -/
theorem getTargetCamera_clamps (px py viewW viewH zoom mapW mapH : ℚ) :
    (viewW / zoom ≤ mapW →
      (getTargetCamera px py viewW viewH zoom mapW mapH).1
        = clamp (px - (viewW / zoom) / 2) 0 (mapW - viewW / zoom)) ∧
    (mapW < viewW / zoom →
      (getTargetCamera px py viewW viewH zoom mapW mapH).1 = 0) ∧
    (viewH / zoom ≤ mapH →
      (getTargetCamera px py viewW viewH zoom mapW mapH).2
        = clamp (py - (viewH / zoom) / 2) 0 (mapH - viewH / zoom)) ∧
    (mapH < viewH / zoom →
      (getTargetCamera px py viewW viewH zoom mapW mapH).2 = 0) := by
  refine ⟨?_, ?_, ?_, ?_⟩
  · intro h
    simp only [getTargetCamera]
    rw [max_eq_right (sub_nonneg.mpr h)]
  · intro h
    simp only [getTargetCamera]
    rw [max_eq_left (le_of_lt (sub_neg.mpr h))]
    unfold clamp
    rw [max_eq_left (min_le_left 0 _)]
  · intro h
    simp only [getTargetCamera]
    rw [max_eq_right (sub_nonneg.mpr h)]
  · intro h
    simp only [getTargetCamera]
    rw [max_eq_left (le_of_lt (sub_neg.mpr h))]
    unfold clamp
    rw [max_eq_left (min_le_left 0 _)]

/-- Witness for C9 at concrete inputs: with an 800 by 600 screen at zoom 2,
a 1920-wide map clamps the x target normally, and a 200-tall map (smaller
than the 300-tall effective viewport) forces the y target to 0. -/
theorem getTargetCamera_clamps_witness :
    (getTargetCamera 100 50 800 600 2 1920 200).1
      = clamp (100 - (800 / 2) / 2) 0 (1920 - 800 / 2) ∧
    (getTargetCamera 100 50 800 600 2 1920 200).2 = 0 :=
  ⟨(getTargetCamera_clamps 100 50 800 600 2 1920 200).1 (by norm_num),
    (getTargetCamera_clamps 100 50 800 600 2 1920 200).2.2.2 (by norm_num)⟩

/-- The wander branch of `Ghost.update` in the variants that normalise the
heading: when the countdown has run out, resample the heading from the raw
random pair `(rx, ry)` divided by its length (`len` is `Math.hypot(rx, ry)`,
passed here as a parameter constrained to be the non-negative square root
of `rx*rx + ry*ry`, with the source's `|| 1` guard for a zero length) and
reset the countdown to 120; otherwise just decrement the countdown and keep
the heading. -/
def ghostWanderStep (timer : ℤ) (dx dy rx ry len : ℚ) : ℤ × ℚ × ℚ :=
  if timer ≤ 0 then
    let l := if len = 0 then 1 else len
    (120, rx / l, ry / l)
  else (timer - 1, dx, dy)

/-- The wander branch of `Ghost.update` in the basic game.js variant: the
resampled heading is the raw random pair, with no normalisation. -/
def ghostWanderStepBasic (timer : ℤ) (dx dy rx ry : ℚ) : ℤ × ℚ × ℚ :=
  if timer ≤ 0 then (120, rx, ry) else (timer - 1, dx, dy)

/-- Counterexample to C10: in the basic variant a resample with the raw
random pair (0.5, 0.5) installs a heading of squared length 0.5, not a
unit-length vector. -/
theorem ghostWanderStepBasic_not_unit :
    ghostWanderStepBasic 0 0 0 (1/2) (1/2) = (120, 1/2, 1/2) ∧
    ¬ ((1:ℚ)/2) * ((1:ℚ)/2) + ((1:ℚ)/2) * ((1:ℚ)/2) = 1 := by
  constructor
  · norm_num [ghostWanderStepBasic]
  · norm_num

/-- C10 as amended: in the variants that normalise the heading, a resample
happens exactly when the countdown has reached 0, installs a unit-length
heading whenever the raw random pair is non-zero (a zero pair degenerates
to the zero heading through the `|| 1` guard), and resets the countdown to
120; on every other tick the countdown is only decremented and the heading
is kept; the basic game.js variant resamples without normalising, so its
heading is generally not unit-length. -/
theorem ghostWanderStep_spec (timer : ℤ) (dx dy rx ry len : ℚ)
    (hlen : len * len = rx * rx + ry * ry) (hpos : 0 ≤ len) :
    (timer ≤ 0 → ¬ (rx = 0 ∧ ry = 0) →
      (ghostWanderStep timer dx dy rx ry len).1 = 120 ∧
      (ghostWanderStep timer dx dy rx ry len).2.1 *
          (ghostWanderStep timer dx dy rx ry len).2.1 +
        (ghostWanderStep timer dx dy rx ry len).2.2 *
          (ghostWanderStep timer dx dy rx ry len).2.2 = 1) ∧
    (0 < timer →
      ghostWanderStep timer dx dy rx ry len = (timer - 1, dx, dy)) := by
  constructor
  · intro ht hne
    have hl : len ≠ 0 := by
      intro h0
      rw [h0] at hlen
      have hrx : rx * rx = 0 ∧ ry * ry = 0 := by
        constructor <;> nlinarith [mul_self_nonneg rx, mul_self_nonneg ry]
      exact hne ⟨mul_self_eq_zero.mp hrx.1, mul_self_eq_zero.mp hrx.2⟩
    have hstep : ghostWanderStep timer dx dy rx ry len
        = (120, rx / len, ry / len) := by
      simp [ghostWanderStep, ht, hl]
    rw [hstep]
    refine ⟨rfl, ?_⟩
    have : rx / len * (rx / len) + ry / len * (ry / len)
        = (rx * rx + ry * ry) / (len * len) := by
      field_simp
    rw [this, ← hlen, div_self (mul_ne_zero hl hl)]
  · intro ht
    simp [ghostWanderStep, not_le.mpr ht]

/-- Witness for amended C10 at concrete inputs: resampling with the raw
pair (0.6, 0.8), of length 1, installs the unit heading (0.6, 0.8) and
resets the countdown to 120; and a running countdown of 5 just ticks down
to 4 with the heading kept. -/
theorem ghostWanderStep_spec_witness :
    (ghostWanderStep 0 0 0 (3/5) (4/5) 1).1 = 120 ∧
    (ghostWanderStep 0 0 0 (3/5) (4/5) 1).2.1 *
        (ghostWanderStep 0 0 0 (3/5) (4/5) 1).2.1 +
      (ghostWanderStep 0 0 0 (3/5) (4/5) 1).2.2 *
        (ghostWanderStep 0 0 0 (3/5) (4/5) 1).2.2 = 1 ∧
    ghostWanderStep 5 (3/5) (4/5) (3/5) (4/5) 1 = (4, 3/5, 4/5) := by
  have h1 := (ghostWanderStep_spec 0 0 0 (3/5) (4/5) 1 (by norm_num)
    (by norm_num)).1 (by norm_num) (by norm_num)
  have h2 := (ghostWanderStep_spec 5 (3/5) (4/5) (3/5) (4/5) 1 (by norm_num)
    (by norm_num)).2 (by norm_num)
  refine ⟨h1.1, h1.2, ?_⟩
  rw [h2]
  norm_num

end MansionEscape
